import Mathlib

/-!
Verification of the SaaS-companies scraper repository.

Shallow embedding of the decision logic of the five source files
(`main.py`, `base_scraper.py`, `browser_utils.py`, `data_extractor.py`,
`saas_scraper.py`).  Pure string/number manipulation is embedded directly;
effectful code (browser, HTTP, filesystem) is embedded as functions over
explicit environment records describing the outcome of each external step,
with Python exceptions modelled as `Except`/`Bool` outcomes.  Strings are
handled as `String`/`List Char`; Python's `len` on a string is the character
count, matching `List.length` on `String.toList`.
-/

/-! ### Generic Python-string helpers -/

/-- ASCII whitespace test used to model Python `str.strip()` (the scraper
only ever strips ASCII text scraped from fixed markup). -/
def isPySpace (c : Char) : Bool :=
  c == ' ' || c == '\t' || c == '\n' || c == '\r' || c == '\x0b' || c == '\x0c'

/-- Model of Python `str.strip()` on a character list. -/
def pyStripChars (cs : List Char) : List Char :=
  ((cs.dropWhile isPySpace).reverse.dropWhile isPySpace).reverse

/-- ASCII decimal-digit test (`'0' ≤ c ≤ '9'`). -/
def isDigitChar (c : Char) : Bool :=
  48 ≤ c.toNat && c.toNat ≤ 57

/-- Value of a decimal digit character. -/
def digitVal (c : Char) : Nat := c.toNat - 48

/-- Decimal digit string to natural number. -/
def digitsToNat (ds : List Char) : Nat :=
  ds.foldl (fun a c => a * 10 + digitVal c) 0

/-- Does `hay` start with `needle`?  (Model of Python `str.startswith` at
the character level; used to model the `in` operator below.) -/
def startsWithChars : List Char → List Char → Bool
  | [], _ => true
  | _ :: _, [] => false
  | a :: as, b :: bs => a == b && startsWithChars as bs

/-- Does `hay` contain `needle` as a contiguous substring?  Model of
Python `needle in hay` on strings. -/
def containsSub (needle : List Char) : List Char → Bool
  | [] => needle.isEmpty
  | b :: bs => startsWithChars needle (b :: bs) || containsSub needle bs

/-- Model of Python `str.lower()` (ASCII case folding; all blocking
indicators in the source are ASCII). -/
def lowerChars (cs : List Char) : List Char := cs.map Char.toLower

/-- Model of Python `str.upper()` (ASCII). -/
def upperChars (cs : List Char) : List Char := cs.map Char.toUpper

/-! ### data_extractor.py — `convert_employee_count`

Python computes `int(float(x) * 1000)` (resp. `* 1000000`).  The model
parses the decimal literal exactly as a scaled natural number and truncates
toward zero, which agrees with the float computation on the magnitudes the
spec exercises; exponent/`inf`/`nan`/underscore forms accepted by Python's
`float` are not modelled (no spec sentence mentions them). -/

/-- Exact value of a parsed decimal literal: `(-1)^neg * num / 10^scale`. -/
structure PyDecimal where
  neg : Bool
  num : Nat
  scale : Nat
deriving DecidableEq

/-- Parse an unsigned decimal literal (`digits`, `digits.digits`,
`digits.`, `.digits`), as accepted by Python `float`. -/
def parseUnsignedDecimal (cs : List Char) : Option PyDecimal :=
  match cs.splitOn '.' with
  | [ds] =>
      if !ds.isEmpty && ds.all isDigitChar then
        some ⟨false, digitsToNat ds, 0⟩
      else none
  | [ds, fs] =>
      if (!ds.isEmpty || !fs.isEmpty) && ds.all isDigitChar && fs.all isDigitChar then
        some ⟨false, digitsToNat ds * 10 ^ fs.length + digitsToNat fs, fs.length⟩
      else none
  | _ => none

/-- Model of Python `float(s)` for plain decimal literals, with the
leading/trailing whitespace stripping and optional sign that `float`
performs. -/
def parsePyFloat (cs : List Char) : Option PyDecimal :=
  match pyStripChars cs with
  | '+' :: rest => parseUnsignedDecimal rest
  | '-' :: rest => (parseUnsignedDecimal rest).map (fun q => ⟨true, q.num, q.scale⟩)
  | rest => parseUnsignedDecimal rest

/-- Model of Python `int(q * m)` for a parsed decimal `q` and natural
multiplier `m`: exact multiplication followed by truncation toward zero. -/
def pyIntOfScaled (q : PyDecimal) (m : Nat) : Int :=
  let mag : Nat := q.num * m / 10 ^ q.scale
  if q.neg then -(mag : Int) else (mag : Int)

/-- Model of Python `int(s)` on strings: optional whitespace, optional
sign, nonempty digit run. -/
def parsePyIntChars (cs : List Char) : Option Int :=
  match pyStripChars cs with
  | '+' :: rest =>
      if !rest.isEmpty && rest.all isDigitChar then some (digitsToNat rest) else none
  | '-' :: rest =>
      if !rest.isEmpty && rest.all isDigitChar then some (-(digitsToNat rest : Int)) else none
  | rest =>
      if !rest.isEmpty && rest.all isDigitChar then some (digitsToNat rest) else none

/-- Embedding of `data_extractor.convert_employee_count`: strip and
upper-case the input; on a `'K'` remove all `'K'`s, parse as float and
multiply by 1000; on an `'M'` likewise with 1000000; otherwise parse as
int.  Any parse failure (Python `ValueError`/`TypeError`) yields `none`. -/
def convert_employee_count (s : String) : Option Int :=
  let cs := upperChars (pyStripChars s.toList)
  if cs.contains 'K' then
    (parsePyFloat (cs.filter (fun c => !(c == 'K')))).map (fun q => pyIntOfScaled q 1000)
  else if cs.contains 'M' then
    (parsePyFloat (cs.filter (fun c => !(c == 'M')))).map (fun q => pyIntOfScaled q 1000000)
  else
    parsePyIntChars cs

/-! ### data_extractor.py — `extract_company_data_from_card` -/

/-- A scraped list-row record: the ten fields initialised to `None` at the
top of `extract_company_data_from_card`. -/
structure CompanyRecord where
  companyName : Option String := none
  companyLinkedinUrl : Option String := none
  companyHyperlink : Option String := none
  companyWebsiteUrl : Option String := none
  revenue : Option String := none
  funding : Option String := none
  growth : Option String := none
  founderName : Option String := none
  location : Option String := none
  industry : Option String := none
deriving DecidableEq

/-- One `td.data-table_cell__a_9gs` cell, abstracted to the queries the
extractor performs on it: the `a.cells_link__PfQot` link (text and
optional `href`), the first LinkedIn-matching and `//`-matching link
hrefs, the presence of a `button.btn_lock`, the stripped cell text, and
the founder/location/industry link texts. -/
structure Cell where
  nameLink : Option (String × Option String) := none
  linkedinHref : Option String := none
  websiteHref : Option String := none
  hasLockButton : Bool := false
  cellText : String := ""
  founderLinkText : Option String := none
  firstAnchorText : Option String := none
  industryLinkText : Option String := none
deriving DecidableEq

/-- Cell with nothing found in it. -/
def defaultCell : Cell := {}

/-- Does a string start with `'/'`? (Python `href.startswith('/')`.) -/
def startsWithSlash (s : String) : Bool :=
  match s.toList with
  | '/' :: _ => true
  | _ => false

/-- Does a string start with `"//"`? (Python `href.startswith('//')`.) -/
def startsWithDoubleSlash (s : String) : Bool :=
  match s.toList with
  | '/' :: '/' :: _ => true
  | _ => false

/-- `urljoin('https://getlatka.com', href)` for the guarded case
`href.startswith('/')` used in the source, else `href` unchanged. -/
def urljoin_getlatka (href : String) : String :=
  if startsWithSlash href then "https://getlatka.com" ++ href else href

/-- Embedding of `extract_company_data_from_card`.  `cells` is the list of
cells carrying the expected cell class.  Fewer than 14 such cells returns
the all-`None` record unchanged; otherwise the fields are populated from
cells 1, 2, 6, 8, 9, 13 and (when present) 14 exactly as in the source,
with Python truthiness checks on texts and hrefs (`if href:`,
`if revenue_text and revenue_text != ''`) modelled as non-emptiness. -/
def extract_company_data_from_card (cells : List Cell) : CompanyRecord :=
  if cells.length < 14 then {}
  else
    let c1 := cells.getD 1 defaultCell
    let c2 := cells.getD 2 defaultCell
    let c6 := cells.getD 6 defaultCell
    let c8 := cells.getD 8 defaultCell
    let c9 := cells.getD 9 defaultCell
    let c13 := cells.getD 13 defaultCell
    { companyName := c1.nameLink.map (fun nl => nl.1)
      companyHyperlink := c1.nameLink.bind
        (fun nl => nl.2.bind (fun h => if h == "" then none else some (urljoin_getlatka h)))
      companyLinkedinUrl := c1.linkedinHref
      companyWebsiteUrl := c1.websiteHref.bind
        (fun h => if startsWithDoubleSlash h then some ("https:" ++ h) else none)
      revenue := if !c2.hasLockButton && !(c2.cellText == "") then some c2.cellText else none
      funding := if !c6.hasLockButton && !(c6.cellText == "") then some c6.cellText else none
      growth := if !c8.hasLockButton && !(c8.cellText == "") then some c8.cellText else none
      founderName := c9.founderLinkText.bind (fun t => if t == "" then none else some t)
      location := c13.firstAnchorText.bind (fun t => if t == "" then none else some t)
      industry :=
        if 14 < cells.length then
          (cells.getD 14 defaultCell).industryLinkText.bind
            (fun t => if t == "" then none else some t)
        else none }

/-- Python truthiness of an optional string (`None` and `''` are falsy):
the guard `if company_data['Company Name']:` used by every scraping path. -/
def pyTruthyStr : Option String → Bool
  | none => false
  | some s => !(s == "")

/-- The non-empty-name filter applied to extracted rows in
`scrape_companies_list`, `_scrape_with_requests_fallback`,
`scrape_specific_page` (both branches). -/
def keep_named (rs : List CompanyRecord) : List CompanyRecord :=
  rs.filter (fun r => pyTruthyStr r.companyName)

/-! ### browser_utils.py — `detect_blocking` -/

/-- The fixed blocking-indicator substrings from `detect_blocking`. -/
def blocking_indicators : List String :=
  ["blocked", "captcha", "cloudflare", "access denied",
   "please wait", "checking your browser", "ddos protection"]

/-- The live-page state `detect_blocking` inspects: the page source text
and the number of `data-table_row__aX_dq` elements the driver finds. -/
structure DriverState where
  pageSource : List Char
  rowCount : Nat

/-- Embedding of `detect_blocking` (non-exceptional path; a driver
exception makes the Python function return `True` conservatively and is
outside this content model): any indicator occurring in the lower-cased
page source, a source shorter than 5000 characters, or zero company rows
each classify the page as blocked. -/
def detect_blocking (st : DriverState) : Bool :=
  if blocking_indicators.any (fun ind => containsSub ind.toList (lowerChars st.pageSource)) then
    true
  else if st.pageSource.length < 5000 then true
  else if st.rowCount = 0 then true
  else false

/-! ### base_scraper.py — `_get_page_content` -/

/-- Environment for one `_get_page_content` call: whether
`config['use_selenium'] and self.driver` holds, the outcome of the
Selenium retrieval (page source, or any exception on the
get/sleep/wait path), and the outcome of `session.get` (final status and
body text, or any exception such as timeout/connection error). -/
structure FetchEnv where
  useSelenium : Bool
  seleniumResult : Except Unit String
  httpResult : Except Unit (Nat × String)

/-- Embedding of `requests.Response.raise_for_status`: raises exactly on
client-error and server-error statuses (400–599). -/
def raise_for_status (status : Nat) : Except Unit Unit :=
  if 400 ≤ status && status < 600 then .error () else .ok ()

/-- Result of a `_get_page_content` call, with the number of HTTP GETs the
call issued (the function never loops, so this counts retries). -/
structure FetchOutcome where
  content : Option String
  httpAttempts : Nat
deriving DecidableEq

/-- Embedding of `_get_page_content`: the Selenium branch runs only when
configured and returns its page source on success, any of its exceptions
being swallowed; otherwise a single HTTP GET is issued, `raise_for_status`
is applied, and any exception on that path yields `none`.  The function is
total: no exception propagates to the caller. -/
def get_page_content (env : FetchEnv) : FetchOutcome :=
  match (if env.useSelenium then env.seleniumResult else .error ()) with
  | .ok source => ⟨some source, 0⟩
  | .error _ =>
      match env.httpResult with
      | .error _ => ⟨none, 1⟩
      | .ok (status, text) =>
          match raise_for_status status with
          | .error _ => ⟨none, 1⟩
          | .ok _ => ⟨some text, 1⟩

/-! ### saas_scraper.py — `_navigate_to_next_page` -/

/-- Environment for one `_navigate_to_next_page` call.  `preRows` and
`postRows` are the company rows found before and after the click, each as
the optional text of its `a.cells_link__PfQot` link (`none` when that
per-row lookup raises and the row is skipped).  The booleans give the
outcomes of the effectful steps: an exception anywhere before the click
attempts (overlay handling, row query, the clickable-wait on the next
button, the scroll script), the two click attempts, and the AJAX settle
wait `wait_for_ajax_content_load`. -/
structure NavEnv where
  preRaises : Bool
  preRows : List (Option String)
  buttonWait : Bool
  scrollRaises : Bool
  jsClickOk : Bool
  nativeClickOk : Bool
  ajaxOk : Bool
  postRows : List (Option String)

/-- The Page State Signature: texts of up to the first 5 rows whose name
link could be read (`current_rows[:5]` with per-row failures skipped). -/
def signature5 (rows : List (Option String)) : List String :=
  (rows.take 5).filterMap id

/-- Embedding of `_navigate_to_next_page`.  Any exception on the path is
caught by the enclosing handler and reported as `false`; if both click
attempts fail the function returns `false`; if the settle wait fails it
returns `false`; otherwise it returns `true` exactly when both captured
signatures are non-empty and their first entries differ. -/
def navigate_to_next_page (e : NavEnv) : Bool :=
  if e.preRaises then false
  else if !e.buttonWait then false
  else if e.scrollRaises then false
  else if !(e.jsClickOk || e.nativeClickOk) then false
  else if !e.ajaxOk then false
  else
    match signature5 e.postRows, signature5 e.preRows with
    | c :: _, p :: _ => !(c == p)
    | _, _ => false

/-! ### saas_scraper.py — chunk partition in `scrape_all_company_profiles` -/

/-- Model of Python `range(start, stop, step)` for a positive step,
written with explicit fuel so that it is structurally recursive (the fuel
`stop - start` dominates the iteration count whenever `step ≥ 1`). -/
def pyRangeAux (step : Nat) : Nat → Nat → Nat → List Nat
  | 0, _, _ => []
  | fuel + 1, start, stop =>
      if 0 < step && start < stop then start :: pyRangeAux step fuel (start + step) stop
      else []

/-- Python `range(start, stop, step)` (positive step). -/
def pyRange (start stop step : Nat) : List Nat :=
  pyRangeAux step (stop - start) start stop

/-- Python slice `l[i : i + n]`. -/
def list_slice {α : Type} (l : List α) (i n : Nat) : List α :=
  (l.drop i).take n

/-- Embedding of the chunk partition
`[companies_list[i:i + chunk_size] for i in range(0, len(companies_list), chunk_size)]`
from `scrape_all_company_profiles`. -/
def company_chunks {α : Type} (l : List α) (c : Nat) : List (List α) :=
  (pyRange 0 l.length c).map (fun i => list_slice l i c)

/-! ### saas_scraper.py — record merge `{**company, **profile_data}` -/

/-- CPython dict assignment `d[k] = v`: overwrite in place when the key is
present (preserving insertion order), append otherwise.  Dicts are
modelled as key-value lists built from `[]` by this operation. -/
def dictInsert {K V : Type} [DecidableEq K] : List (K × V) → K → V → List (K × V)
  | [], k, v => [(k, v)]
  | p :: rest, k, v => if p.1 = k then (k, v) :: rest else p :: dictInsert rest k v

/-- Insert all of `items`, in order, into `d` (the per-dict part of a
`{** ... }` display). -/
def dictUpdate {K V : Type} [DecidableEq K] (d items : List (K × V)) : List (K × V) :=
  items.foldl (fun acc p => dictInsert acc p.1 p.2) d

/-- The merge `{**company, **profile_data}` used by
`_process_companies_chunk` and `scrape_all_company_profiles`: a fresh dict
receiving first the list record's items, then the profile record's. -/
def dictLiteralMerge {K V : Type} [DecidableEq K] (company profile : List (K × V)) :
    List (K × V) :=
  dictUpdate (dictUpdate [] company) profile

/-- Dict lookup `d[k]`/`d.get(k)` as an option. -/
def dictGet {K V : Type} [DecidableEq K] (d : List (K × V)) (k : K) : Option V :=
  (d.find? (fun p => p.1 = k)).map (fun p => p.2)

/-! ### saas_scraper.py — `scrape_page_range` -/

/-- The records one iteration of the `scrape_page_range` loop contributes:
the list `scrape_specific_page(page)` returns, or nothing when that call
raises (the `except` arm logs and continues with the next page).
`fetch` abstracts `scrape_specific_page` together with its environment. -/
def pageResult (fetch : Nat → Except Unit (List CompanyRecord)) (p : Nat) :
    List CompanyRecord :=
  match fetch p with
  | .ok cs => cs
  | .error _ => []

/-- The pages `scrape_page_range` iterates over:
`range(start_page, end_page + 1)`. -/
def pages_attempted (s e : Nat) : List Nat := List.range' s (e + 1 - s)

/-- Embedding of `scrape_page_range`: reject `start_page < 1` and
`end_page < start_page` with a `ValueError`; otherwise accumulate the
per-page results over `range(start_page, end_page + 1)`, skipping pages
whose scrape raised. -/
def scrape_page_range (fetch : Nat → Except Unit (List CompanyRecord)) (s e : Nat) :
    Except Unit (List CompanyRecord) :=
  if s < 1 then .error ()
  else if e < s then .error ()
  else .ok ((pages_attempted s e).flatMap (fun p => pageResult fetch p))

/-! ### saas_scraper.py — `scrape_companies_list` and the requests fallback -/

/-- Browser-side outcome for one page of the Selenium list-scrape loop:
whether an exception escapes to the outer handler while processing this
page, whether the wait for company rows timed out, the page-source length
inspected on timeout, the records extracted from the found rows (row
extraction failures already skipped), and the result of
`_navigate_to_next_page` from this page. -/
structure BrowserPage where
  raises : Bool
  rowsTimeout : Bool
  sourceLen : Nat
  extracted : List CompanyRecord
  navOk : Bool

/-- HTTP-side outcome for one page of `_scrape_with_requests_fallback`:
`none` when `_get_page_content` returned no content, otherwise the
records extracted from the rows found in the fetched markup. -/
structure HttpPage where
  content : Option (List CompanyRecord)

/-- Records one fallback-loop iteration contributes: nothing on a failed
fetch (`continue`), else the extracted rows surviving the name filter. -/
def fallback_rows (hp : HttpPage) : List CompanyRecord :=
  match hp.content with
  | none => []
  | some rows => keep_named rows

/-- The pages `_scrape_with_requests_fallback` iterates over:
`range(1, pages_to_scrape + 1)` — always the whole range from page 1. -/
def fallback_pages (pages : Nat) : List Nat := List.range' 1 pages

/-- Embedding of `_scrape_with_requests_fallback`. -/
def scrape_with_requests_fallback (http : Nat → HttpPage) (pages : Nat) :
    List CompanyRecord :=
  (fallback_pages pages).flatMap (fun p => fallback_rows (http p))

/-- Outcome of the Selenium `for page in range(1, pages_to_scrape + 1)`
loop in `scrape_companies_list`: the loop ran to completion or was left by
`break`; an exception was caught by the enclosing handler; or the function
returned the requests fallback from inside the loop.  Each constructor
carries the records accumulated so far. -/
inductive LoopOutcome
  | completed (acc : List CompanyRecord)
  | aborted (acc : List CompanyRecord)
  | fellBack (acc : List CompanyRecord)
deriving DecidableEq

/-- One pass of the Selenium list-scrape loop over the remaining pages.
On a row-wait timeout: short source (`< 5000`) returns the fallback when
`page > 1` and breaks at page 1, while a long source `continue`s; on
found rows the name-filtered records are appended and, before the last
page, a navigation failure returns the fallback. -/
def listLoopAux (env : Nat → BrowserPage) (pages : Nat) :
    List Nat → List CompanyRecord → LoopOutcome
  | [], acc => .completed acc
  | page :: rest, acc =>
      let bp := env page
      if bp.raises then .aborted acc
      else if bp.rowsTimeout then
        if bp.sourceLen < 5000 then
          if 1 < page then .fellBack acc else .completed acc
        else listLoopAux env pages rest acc
      else
        let acc2 := acc ++ keep_named bp.extracted
        if page < pages then
          if bp.navOk then listLoopAux env pages rest acc2 else .fellBack acc2
        else listLoopAux env pages rest acc2

/-- The Selenium loop of `scrape_companies_list`, over
`range(1, pages_to_scrape + 1)` starting with no accumulated records. -/
def listLoop (env : Nat → BrowserPage) (pages : Nat) : LoopOutcome :=
  listLoopAux env pages (List.range' 1 pages) []

/-- Environment of one `scrape_companies_list` run: the configuration flag
(`use_selenium` and a live driver), whether the initial `driver.get` of the
base URL raises, the page count, and the per-page browser and HTTP
outcomes. -/
structure ScrapeEnv where
  useSelenium : Bool
  initRaises : Bool
  pages : Nat
  browser : Nat → BrowserPage
  http : Nat → HttpPage

/-- Embedding of `scrape_companies_list`: with Selenium, run the loop; a
fallback return inside the loop yields exactly the fallback's result
(discarding the loop's accumulated records); otherwise — including a
caught exception — the accumulated records are returned unless empty, in
which case the fallback runs.  Without Selenium the fallback runs
directly. -/
def scrape_companies_list (E : ScrapeEnv) : List CompanyRecord :=
  if E.useSelenium then
    if E.initRaises then scrape_with_requests_fallback E.http E.pages
    else
      match listLoop E.browser E.pages with
      | .fellBack _ => scrape_with_requests_fallback E.http E.pages
      | .completed acc =>
          if acc.isEmpty then scrape_with_requests_fallback E.http E.pages else acc
      | .aborted acc =>
          if acc.isEmpty then scrape_with_requests_fallback E.http E.pages else acc
  else scrape_with_requests_fallback E.http E.pages

/-! ### main.py — `main` -/

/-- The scraper run that `main` dispatches after validating its
arguments. -/
inductive CliAction
  | runSingle (n : Int)
  | runRange (s e : Int)
deriving DecidableEq

/-- Observable outcome of a `main` invocation: the value returned to
`sys.exit`, whether `print_usage` ran, and which scraper run (if any) was
dispatched.  A dispatched run performs the page fetches; `none` means no
page fetch was attempted.  The model covers the argument-handling paths;
exceptions raised by a dispatched run (which exit 1 without usage text)
are outside it. -/
structure CliOutcome where
  exitCode : Int
  usagePrinted : Bool
  action : Option CliAction
deriving DecidableEq

/-- Embedding of `main` over `sys.argv` (program name included, as in
`len(sys.argv)`): no arguments runs the default range 1–5; one argument
must parse as an int `≥ 1`; two arguments must parse as ints with
`start ≥ 1` and `end ≥ start`; anything else is a usage error.  Every
rejection prints usage and returns 1. -/
def mainModel (argv : List String) : CliOutcome :=
  match argv with
  | [_] => ⟨0, false, some (.runRange 1 5)⟩
  | [_, a] =>
      match parsePyIntChars a.toList with
      | none => ⟨1, true, none⟩
      | some n => if n < 1 then ⟨1, true, none⟩ else ⟨0, false, some (.runSingle n)⟩
  | [_, a, b] =>
      match parsePyIntChars a.toList, parsePyIntChars b.toList with
      | some s, some e =>
          if s < 1 then ⟨1, true, none⟩
          else if e < s then ⟨1, true, none⟩
          else ⟨0, false, some (.runRange s e)⟩
      | _, _ => ⟨1, true, none⟩
  | _ => ⟨1, true, none⟩

/-! ## Helper lemmas -/

theorem startsWithChars_iff (n : List Char) :
    ∀ h : List Char, startsWithChars n h = true ↔ ∃ t, h = n ++ t := by
  induction n with
  | nil =>
      intro h
      simp [startsWithChars]
  | cons a as ih =>
      intro h
      cases h with
      | nil => simp [startsWithChars]
      | cons b bs =>
          simp only [startsWithChars, Bool.and_eq_true, beq_iff_eq, ih]
          constructor
          · rintro ⟨rfl, t, rfl⟩
            exact ⟨t, rfl⟩
          · rintro ⟨t, ht⟩
            rw [List.cons_append] at ht
            cases ht
            exact ⟨rfl, t, rfl⟩

theorem containsSub_iff (n : List Char) :
    ∀ h : List Char, containsSub n h = true ↔ ∃ u v, h = u ++ n ++ v := by
  intro h
  induction h with
  | nil =>
      simp only [containsSub, List.isEmpty_iff]
      constructor
      · rintro rfl
        exact ⟨[], [], rfl⟩
      · rintro ⟨u, v, huv⟩
        have hlen := congrArg List.length huv
        simp at hlen
        exact List.length_eq_zero.mp (by omega)
  | cons b bs ih =>
      simp only [containsSub, Bool.or_eq_true, startsWithChars_iff, ih]
      constructor
      · rintro (⟨t, ht⟩ | ⟨u, v, huv⟩)
        · exact ⟨[], t, by simp [ht]⟩
        · exact ⟨b :: u, v, by simp [huv]⟩
      · rintro ⟨u, v, huv⟩
        cases u with
        | nil =>
            left
            exact ⟨v, by simpa using huv⟩
        | cons x u2 =>
            right
            rw [List.cons_append, List.cons_append] at huv
            cases huv
            exact ⟨u2, v, rfl⟩

/-! ## Claim C7 -/

/-- C7: `convert_employee_count` maps `"1.4K"` to `1400`, `"2M"` to
`2000000` and `"500"` to `500`; and whenever the branch taken for an input
fails to parse it (as `float` after suffix removal, or as `int`), the
function returns `none` — e.g. on `"n/a"` — raising no exception (the
embedding is a total function into `Option`). -/
theorem convert_employee_count_spec :
    convert_employee_count "1.4K" = some 1400 ∧
    convert_employee_count "2M" = some 2000000 ∧
    convert_employee_count "500" = some 500 ∧
    convert_employee_count "n/a" = none ∧
    (∀ s : String,
      ((upperChars (pyStripChars s.toList)).contains 'K' = true →
        parsePyFloat ((upperChars (pyStripChars s.toList)).filter (fun c => !(c == 'K'))) =
          none →
        convert_employee_count s = none) ∧
      ((upperChars (pyStripChars s.toList)).contains 'K' = false →
        (upperChars (pyStripChars s.toList)).contains 'M' = true →
        parsePyFloat ((upperChars (pyStripChars s.toList)).filter (fun c => !(c == 'M'))) =
          none →
        convert_employee_count s = none) ∧
      ((upperChars (pyStripChars s.toList)).contains 'K' = false →
        (upperChars (pyStripChars s.toList)).contains 'M' = false →
        parsePyIntChars (upperChars (pyStripChars s.toList)) = none →
        convert_employee_count s = none)) := by
  refine ⟨by decide, by decide, by decide, by decide, ?_⟩
  intro s
  refine ⟨?_, ?_, ?_⟩
  · intro hK hP
    simp only [convert_employee_count]
    rw [hK, if_pos rfl, hP]
    rfl
  · intro hK hM hP
    simp only [convert_employee_count]
    rw [hK, hM, if_neg Bool.false_ne_true, if_pos rfl, hP]
    rfl
  · intro hK hM hP
    simp only [convert_employee_count]
    rw [hK, hM]
    simpa using hP

/-- Witness for C7: the hypothesised branch-failure cases are inhabited
(`"xK"`, `"zM"`, `"q!"` all fail to parse in their branch). -/
theorem convert_employee_count_spec_witness :
    convert_employee_count "xK" = none ∧
    convert_employee_count "zM" = none ∧
    convert_employee_count "q!" = none :=
  ⟨(convert_employee_count_spec.2.2.2.2 "xK").1 (by decide) (by decide),
   (convert_employee_count_spec.2.2.2.2 "zM").2.1 (by decide) (by decide) (by decide),
   (convert_employee_count_spec.2.2.2.2 "q!").2.2 (by decide) (by decide) (by decide)⟩

/-! ## Claim C2 -/

/-- C2: `detect_blocking` classifies as blocked every page whose source is
shorter than 5000 characters and every page whose source contains
`"cloudflare"` in any letter case; and it never classifies as blocked a
page of adequate length whose lower-cased source contains none of the
fixed indicator substrings and which has at least one record-row
element. -/
theorem detect_blocking_spec (st : DriverState) :
    (st.pageSource.length < 5000 → detect_blocking st = true) ∧
    ((∃ u s v, st.pageSource = u ++ s ++ v ∧ lowerChars s = "cloudflare".toList) →
      detect_blocking st = true) ∧
    ((∀ ind ∈ blocking_indicators,
        ¬ ∃ u v, lowerChars st.pageSource = u ++ ind.toList ++ v) →
      5000 ≤ st.pageSource.length → st.rowCount ≠ 0 → detect_blocking st = false) := by
  refine ⟨?_, ?_, ?_⟩
  · intro hlen
    simp only [detect_blocking, hlen]
    split <;> simp
  · rintro ⟨u, s, v, hdecomp, hlow⟩
    have hlow2 : List.map Char.toLower s = "cloudflare".toList := hlow
    have hin : containsSub "cloudflare".toList (lowerChars st.pageSource) = true := by
      rw [containsSub_iff]
      refine ⟨lowerChars u, lowerChars v, ?_⟩
      rw [hdecomp]
      simp only [lowerChars, List.map_append, hlow2]
    simp only [detect_blocking]
    simp
    exact Or.inl ⟨"cloudflare", by decide, hin⟩
  · intro hno hlen hrow
    have hcs : ∀ ind ∈ blocking_indicators,
        containsSub ind.toList (lowerChars st.pageSource) = false := by
      intro ind hind
      rw [← Bool.not_eq_true]
      intro hc
      exact hno ind hind ((containsSub_iff ind.toList (lowerChars st.pageSource)).mp hc)
    simp [detect_blocking, Nat.not_lt.mpr hlen, hrow]
    exact hcs

theorem no_indicator_in_replicate :
    ∀ ind ∈ blocking_indicators,
      ¬ ∃ u v, lowerChars (List.replicate 5000 'z') = u ++ ind.toList ++ v := by
  have hz : Char.toLower 'z' = 'z' := by decide
  have hrep : lowerChars (List.replicate 5000 'z') = List.replicate 5000 'z' := by
    show List.map Char.toLower (List.replicate 5000 'z') = List.replicate 5000 'z'
    rw [List.map_replicate, hz]
  rintro ind hind ⟨u, v, heq⟩
  rw [hrep] at heq
  have hmem : ∀ x ∈ ind.toList, x = 'z' := by
    intro x hx
    apply List.eq_of_mem_replicate (n := 5000) (a := 'z')
    rw [heq]
    exact List.mem_append.mpr (Or.inl (List.mem_append.mpr (Or.inr hx)))
  fin_cases hind <;>
    first
      | exact absurd (hmem 'b' (by decide)) (by decide)
      | exact absurd (hmem 'c' (by decide)) (by decide)
      | exact absurd (hmem 'a' (by decide)) (by decide)

/-- Witness for C2: a 1-character page is blocked, a page containing
`"CloudFlare"` is blocked, and a 5000-character indicator-free page with
one record row is not blocked. -/
theorem detect_blocking_spec_witness :
    detect_blocking ⟨"x".toList, 0⟩ = true ∧
    detect_blocking ⟨"CloudFlare".toList, 3⟩ = true ∧
    detect_blocking ⟨List.replicate 5000 'z', 1⟩ = false :=
  ⟨(detect_blocking_spec _).1 (by decide),
   (detect_blocking_spec _).2.1 ⟨[], "CloudFlare".toList, [], by simp, by decide⟩,
   (detect_blocking_spec _).2.2 no_indicator_in_replicate
     (List.length_replicate 5000 'z').ge (by decide)⟩

/-! ## Claim C1 -/

/-- C1: whenever the pre- and post-navigation first-record signatures are
identical, `_navigate_to_next_page` returns `false` even when the AJAX
settle wait succeeded; and it returns `true` only when the settle wait
succeeded and the first captured record name after navigation differs from
the one captured before. -/
theorem navigate_to_next_page_spec (e : NavEnv) :
    ((signature5 e.preRows).head? = (signature5 e.postRows).head? →
      navigate_to_next_page e = false) ∧
    (navigate_to_next_page e = true →
      e.ajaxOk = true ∧
      ∃ c p, (signature5 e.postRows).head? = some c ∧
        (signature5 e.preRows).head? = some p ∧ c ≠ p) := by
  have hiff : navigate_to_next_page e = true ↔
      (e.preRaises = false ∧ e.buttonWait = true ∧ e.scrollRaises = false ∧
       (e.jsClickOk || e.nativeClickOk) = true ∧ e.ajaxOk = true ∧
       ∃ c cs p ps, signature5 e.postRows = c :: cs ∧
         signature5 e.preRows = p :: ps ∧ c ≠ p) := by
    unfold navigate_to_next_page
    rcases hpost : signature5 e.postRows with _ | ⟨c, cs⟩ <;>
      rcases hpre : signature5 e.preRows with _ | ⟨p, ps⟩ <;>
        cases e.preRaises <;> cases e.buttonWait <;> cases e.scrollRaises <;>
          cases hclick : e.jsClickOk || e.nativeClickOk <;> cases e.ajaxOk <;>
            simp_all
  constructor
  · intro hhead
    rw [← Bool.not_eq_true]
    intro htrue
    obtain ⟨-, -, -, -, -, c, cs, p, ps, hpost, hpre, hne⟩ := hiff.mp htrue
    rw [hpost, hpre] at hhead
    simp at hhead
    exact hne hhead.symm
  · intro htrue
    obtain ⟨-, -, -, -, hajax, c, cs, p, ps, hpost, hpre, hne⟩ := hiff.mp htrue
    exact ⟨hajax, c, p, by rw [hpost]; rfl, by rw [hpre]; rfl, hne⟩

/-- Witness for C1: an attempt where everything succeeds but the first
record name is unchanged fails; one where it changes succeeds, satisfying
the necessary conditions. -/
theorem navigate_to_next_page_spec_witness :
    navigate_to_next_page
      ⟨false, [some "Acme"], true, false, true, true, true, [some "Acme"]⟩ = false ∧
    ((⟨false, [some "Acme"], true, false, true, true, true,
        [some "Bolt"]⟩ : NavEnv).ajaxOk = true ∧
      ∃ c p,
        (signature5 [some "Bolt"]).head? = some c ∧
        (signature5 [some "Acme"]).head? = some p ∧ c ≠ p) :=
  ⟨(navigate_to_next_page_spec _).1 (by decide),
   (navigate_to_next_page_spec
      ⟨false, [some "Acme"], true, false, true, true, true, [some "Bolt"]⟩).2 (by decide)⟩

/-! ## Claim C3 -/

/-- Amended C3: when browser retrieval yields no content (Selenium
disabled/unavailable, or its path raised), `_get_page_content` issues
exactly one HTTP GET (no retry), and any exception on that path — a
request failure or a 4xx/5xx status via `raise_for_status` — makes the
call return `none` without propagating (the embedding is total).  The
original claim said the GET raises on every non-2xx status; `requests`
raises only on 400–599, see the counterexample. -/
theorem get_page_content_spec (env : FetchEnv)
    (hb : env.useSelenium = false ∨ env.seleniumResult = .error ()) :
    (get_page_content env).httpAttempts = 1 ∧
    (env.httpResult = .error () → (get_page_content env).content = none) ∧
    (∀ status text, env.httpResult = .ok (status, text) → 400 ≤ status → status < 600 →
      (get_page_content env).content = none) := by
  have hsel : (if env.useSelenium then env.seleniumResult else .error ()) = .error () := by
    rcases hb with hb | hb
    · rw [hb]
      rfl
    · split <;> [exact hb; rfl]
  refine ⟨?_, ?_, ?_⟩
  · unfold get_page_content
    rw [hsel]
    rcases env.httpResult with - | ⟨status, text⟩
    · rfl
    · change (match raise_for_status status with
              | .error _ => (⟨none, 1⟩ : FetchOutcome)
              | .ok _ => ⟨some text, 1⟩).httpAttempts = 1
      cases raise_for_status status <;> rfl
  · intro hh
    unfold get_page_content
    rw [hsel, hh]
  · intro status text hh h4 h6
    have hrs : raise_for_status status = .error () := by
      unfold raise_for_status
      rw [if_pos]
      simp only [Bool.and_eq_true, decide_eq_true_eq]
      omega
    unfold get_page_content
    rw [hsel, hh]
    change (match raise_for_status status with
            | .error _ => (⟨none, 1⟩ : FetchOutcome)
            | .ok _ => ⟨some text, 1⟩).content = none
    rw [hrs]

/-- Witness for C3 (amended): with Selenium off and a connection error,
one GET is issued and the call fails with `none`. -/
theorem get_page_content_spec_witness :
    (get_page_content ⟨false, .error (), .error ()⟩).httpAttempts = 1 ∧
    (get_page_content ⟨false, .error (), .error ()⟩).content = none :=
  ⟨(get_page_content_spec ⟨false, .error (), .error ()⟩ (Or.inl rfl)).1,
   (get_page_content_spec ⟨false, .error (), .error ()⟩ (Or.inl rfl)).2.1 rfl⟩

/-- Counterexample to C3 as stated: a final HTTP status of 300 (Multiple
Choices, which `requests` does not auto-follow) is not a 2xx status, yet
`raise_for_status` does not raise on it, so `_get_page_content` returns
the body instead of the failure the claim's "raises on non-2xx status"
implies. -/
theorem get_page_content_non2xx_counterexample :
    ¬(200 ≤ 300 ∧ 300 < 300) ∧
    raise_for_status 300 = .ok () ∧
    (get_page_content ⟨false, .error (), .ok (300, "body")⟩).content = some "body" := by
  exact ⟨by omega, rfl, rfl⟩

/-! ## Claim C5 -/

theorem pyRangeAux_flatten {α : Type} (l : List α) (c : Nat) (hc : 0 < c) :
    ∀ fuel i, l.length - i ≤ fuel →
      ((pyRangeAux c fuel i l.length).map (fun j => list_slice l j c)).flatten = l.drop i := by
  intro fuel
  induction fuel with
  | zero =>
      intro i hi
      simp only [pyRangeAux, List.map_nil, List.flatten_nil]
      rw [eq_comm, List.drop_eq_nil_iff]
      omega
  | succ n ih =>
      intro i hi
      rw [pyRangeAux]
      by_cases hlt : i < l.length
      · rw [if_pos (by simp [hc, hlt])]
        rw [List.map_cons, List.flatten_cons, ih (i + c) (by omega)]
        show (l.drop i).take c ++ l.drop (i + c) = l.drop i
        rw [← List.drop_drop, List.take_append_drop]
      · rw [if_neg (by simp [hlt])]
        simp only [List.map_nil, List.flatten_nil]
        rw [eq_comm, List.drop_eq_nil_iff]
        omega

theorem pyRangeAux_length (c : Nat) (hc : 0 < c) :
    ∀ fuel i L, L - i ≤ fuel →
      (pyRangeAux c fuel i L).length = (L - i + c - 1) / c := by
  intro fuel
  induction fuel with
  | zero =>
      intro i L hi
      simp only [pyRangeAux, List.length_nil]
      rw [eq_comm, Nat.div_eq_of_lt]
      omega
  | succ n ih =>
      intro i L hi
      rw [pyRangeAux]
      by_cases hlt : i < L
      · rw [if_pos (by simp [hc, hlt])]
        rw [List.length_cons, ih (i + c) L (by omega)]
        have h1 : L - i + c - 1 = (L - i - 1) + c := by omega
        rw [h1, Nat.add_div_right _ hc]
        by_cases hcase : i + c < L
        · have h2 : L - (i + c) + c - 1 = (L - (i + c) - 1) + c := by omega
          rw [h2, Nat.add_div_right _ hc]
          have h3 : L - (i + c) - 1 = (L - i - 1) - c := by omega
          rw [h3]
          have h4 : (L - i - 1) - c + c = L - i - 1 := by omega
          rw [← Nat.add_div_right (L - i - 1 - c) hc, h4]
        · have h2 : L - (i + c) = 0 := by omega
          rw [h2]
          rw [Nat.zero_add, Nat.div_eq_of_lt (by omega)]
          rw [Nat.div_eq_of_lt (by omega)]
      · rw [if_neg (by simp [hlt])]
        simp only [List.length_nil]
        rw [eq_comm, Nat.div_eq_of_lt]
        omega

/-- C5: for every record list and every chunk size `c > 0`, the chunk
partition built in `scrape_all_company_profiles` covers every record
exactly once — concatenating the chunks in index order reproduces the
input list — and produces exactly `⌈L / c⌉ = (L + c - 1) / c` chunks. -/
theorem company_chunks_spec {α : Type} (l : List α) (c : Nat) (hc : 0 < c) :
    (company_chunks l c).flatten = l ∧
    (company_chunks l c).length = (l.length + c - 1) / c := by
  constructor
  · have := pyRangeAux_flatten l c hc (l.length - 0) 0 (by omega)
    simpa [company_chunks, pyRange] using this
  · have := pyRangeAux_length c hc (l.length - 0) 0 l.length (by omega)
    simp only [company_chunks, pyRange, List.length_map]
    simpa using this

/-- Witness for C5 at a 7-element list with chunk size 3. -/
theorem company_chunks_spec_witness :
    (company_chunks [0, 1, 2, 3, 4, 5, 6] 3).flatten = [0, 1, 2, 3, 4, 5, 6] ∧
    (company_chunks [0, 1, 2, 3, 4, 5, 6] 3).length =
      ((0 :: [1, 2, 3, 4, 5, 6]).length + 3 - 1) / 3 :=
  company_chunks_spec [0, 1, 2, 3, 4, 5, 6] 3 (by decide)

/-! ## Claim C4 -/

/-- C4: for every `1 ≤ start ≤ end`, `scrape_page_range` succeeds and
returns the concatenation, over `range(start, end + 1)`, of each page's
contribution (a raising page contributing nothing and the loop continuing
with the next page); the merged length is the sum of the per-page record
counts, and the pages attempted are exactly those in `[start, end]`. -/
theorem scrape_page_range_spec (fetch : Nat → Except Unit (List CompanyRecord))
    (s e : Nat) (h1 : 1 ≤ s) (h2 : s ≤ e) :
    scrape_page_range fetch s e =
      .ok ((pages_attempted s e).flatMap (fun p => pageResult fetch p)) ∧
    ((pages_attempted s e).flatMap (fun p => pageResult fetch p)).length =
      ((pages_attempted s e).map (fun p => (pageResult fetch p).length)).sum ∧
    (∀ p, p ∈ pages_attempted s e ↔ s ≤ p ∧ p ≤ e) := by
  refine ⟨?_, ?_, ?_⟩
  · unfold scrape_page_range
    rw [if_neg (by omega), if_neg (by omega)]
  · rw [List.length_flatMap]
    congr 1
  · intro p
    unfold pages_attempted
    rw [List.mem_range'_1]
    omega

/-- Witness for C4: a 3-page range whose middle page raises contributes
only the other two pages' records, in order. -/
theorem scrape_page_range_spec_witness :
    (scrape_page_range
        (fun p => if p = 2 then .error () else .ok [{ companyName := some "Acme" }]) 1 3 =
      .ok ((pages_attempted 1 3).flatMap
        (fun p => pageResult
          (fun p => if p = 2 then .error () else .ok [{ companyName := some "Acme" }]) p))) ∧
    (2 ∈ pages_attempted 1 3 ↔ 1 ≤ 2 ∧ 2 ≤ 3) :=
  ⟨(scrape_page_range_spec _ 1 3 (by decide) (by decide)).1,
   (scrape_page_range_spec
      (fun p => if p = 2 then .error () else .ok [{ companyName := some "Acme" }])
      1 3 (by decide) (by decide)).2.2 2⟩

/-! ## Claim C6 -/

theorem dictGet_cons {K V : Type} [DecidableEq K] (p : K × V) (d : List (K × V)) (k : K) :
    dictGet (p :: d) k = if p.1 = k then some p.2 else dictGet d k := by
  simp only [dictGet, List.find?]
  by_cases h : p.1 = k
  · simp [h]
  · simp [h]

theorem dictGet_dictInsert {K V : Type} [DecidableEq K] (d : List (K × V)) (k : K) (v : V)
    (k2 : K) :
    dictGet (dictInsert d k v) k2 = if k2 = k then some v else dictGet d k2 := by
  induction d with
  | nil =>
      rw [show dictInsert ([] : List (K × V)) k v = [(k, v)] from rfl, dictGet_cons]
      by_cases h : k2 = k
      · subst h
        simp
      · rw [if_neg (fun hh => h hh.symm), if_neg h]
  | cons p rest ih =>
      by_cases hp : p.1 = k
      · rw [show dictInsert (p :: rest) k v = (k, v) :: rest from by simp [dictInsert, hp]]
        rw [dictGet_cons, dictGet_cons]
        by_cases h : k2 = k
        · subst h
          rw [if_pos rfl, if_pos rfl]
        · rw [if_neg (fun hh => h hh.symm), if_neg h,
            if_neg (fun hh : p.1 = k2 => h (hh.symm.trans hp))]
      · rw [show dictInsert (p :: rest) k v = p :: dictInsert rest k v from by
          simp [dictInsert, hp]]
        rw [dictGet_cons, dictGet_cons]
        by_cases hpk : p.1 = k2
        · have hne : ¬k2 = k := fun h2 => hp (hpk.trans h2)
          rw [if_pos hpk, if_neg hne, if_pos hpk]
        · rw [if_neg hpk, if_neg hpk, ih]

theorem dictGet_notMem_keys {K V : Type} [DecidableEq K] (d : List (K × V)) (k : K)
    (h : k ∉ d.map Prod.fst) : dictGet d k = none := by
  unfold dictGet
  have hfind : d.find? (fun p => p.1 = k) = none := by
    rw [List.find?_eq_none]
    intro x hx
    simp only [decide_eq_true_eq]
    intro hk
    exact h (List.mem_map.mpr ⟨x, hx, hk⟩)
  rw [hfind]
  rfl

theorem dictGet_dictUpdate {K V : Type} [DecidableEq K] (items : List (K × V)) :
    ∀ d : List (K × V), (items.map Prod.fst).Nodup → ∀ k,
      dictGet (dictUpdate d items) k = (dictGet items k).or (dictGet d k) := by
  induction items with
  | nil =>
      intro d hnd k
      simp [dictUpdate, dictGet, List.find?, Option.or]
  | cons p rest ih =>
      intro d hnd k
      rw [show dictUpdate d (p :: rest) = dictUpdate (dictInsert d p.1 p.2) rest from rfl]
      rw [List.map_cons, List.nodup_cons] at hnd
      rw [ih (dictInsert d p.1 p.2) hnd.2 k, dictGet_dictInsert, dictGet_cons]
      by_cases hk : k = p.1
      · subst hk
        rw [if_pos rfl, if_pos rfl]
        rw [dictGet_notMem_keys rest p.1 hnd.1]
        rfl
      · rw [if_neg hk, if_neg (fun hh : p.1 = k => hk hh.symm)]

/-- C6: in the merged record `{**company, **profile_data}` built during
enrichment, every key present in the profile record maps to the profile's
value (profile values overwrite same-named list fields), and every key
absent from the profile keeps the list record's value (profile gaps never
erase list-provided values).  Key lists are `Nodup` as they are for real
Python dicts. -/
theorem dict_merge_spec {K V : Type} [DecidableEq K] (company profile : List (K × V))
    (k : K) (hs : (company.map Prod.fst).Nodup) (hp : (profile.map Prod.fst).Nodup) :
    (∀ v, dictGet profile k = some v → dictGet (dictLiteralMerge company profile) k = some v) ∧
    (dictGet profile k = none → dictGet (dictLiteralMerge company profile) k = dictGet company k) := by
  have hmain : dictGet (dictLiteralMerge company profile) k =
      (dictGet profile k).or (dictGet company k) := by
    unfold dictLiteralMerge
    rw [dictGet_dictUpdate profile (dictUpdate [] company) hp k]
    rw [dictGet_dictUpdate company [] hs k]
    rw [show dictGet ([] : List (K × V)) k = none from rfl]
    rw [Option.or_none]
  constructor
  · intro v hv
    rw [hmain, hv]
    rfl
  · intro hv
    rw [hmain, hv]
    rfl

/-- Witness for C6: the profile's `Revenue` overrides the list's, while
the list-only `Company Name` survives the merge. -/
theorem dict_merge_spec_witness :
    dictGet (dictLiteralMerge
      [("Company Name", "Acme"), ("Revenue", "listRev")]
      [("Revenue", "profRev"), ("employee_count", "50")]) "Revenue" = some "profRev" ∧
    dictGet (dictLiteralMerge
      [("Company Name", "Acme"), ("Revenue", "listRev")]
      [("Revenue", "profRev"), ("employee_count", "50")]) "Company Name" =
      dictGet [("Company Name", "Acme"), ("Revenue", "listRev")] "Company Name" :=
  ⟨(dict_merge_spec [("Company Name", "Acme"), ("Revenue", "listRev")]
      [("Revenue", "profRev"), ("employee_count", "50")] "Revenue"
      (by decide) (by decide)).1 "profRev" (by decide),
   (dict_merge_spec [("Company Name", "Acme"), ("Revenue", "listRev")]
      [("Revenue", "profRev"), ("employee_count", "50")] "Company Name"
      (by decide) (by decide)).2 (by decide)⟩

/-! ## Claim C8 -/

/-- C8: every invalid CLI invocation — a non-numeric single page argument,
a single page `< 1`, a range with a non-numeric bound, a range with
`start < 1` or `end < start`, or more than two arguments — is rejected
with the usage text printed, a non-zero return to `sys.exit`, and no
scraper run dispatched (hence no page fetch attempted). -/
theorem main_rejects_bad_args :
    (∀ prog a, parsePyIntChars a.toList = none →
      mainModel [prog, a] = ⟨1, true, none⟩) ∧
    (∀ prog a n, parsePyIntChars a.toList = some n → n < 1 →
      mainModel [prog, a] = ⟨1, true, none⟩) ∧
    (∀ prog a b, (parsePyIntChars a.toList = none ∨ parsePyIntChars b.toList = none) →
      mainModel [prog, a, b] = ⟨1, true, none⟩) ∧
    (∀ prog a b s e, parsePyIntChars a.toList = some s → parsePyIntChars b.toList = some e →
      (s < 1 ∨ e < s) → mainModel [prog, a, b] = ⟨1, true, none⟩) ∧
    (∀ argv : List String, 3 < argv.length → mainModel argv = ⟨1, true, none⟩) := by
  refine ⟨?_, ?_, ?_, ?_, ?_⟩
  · intro prog a h
    have h2 : parsePyIntChars a.data = none := h
    simp [mainModel, h2]
  · intro prog a n h hn
    have h2 : parsePyIntChars a.data = some n := h
    simp [mainModel, h2, hn]
  · intro prog a b h
    rcases ha : parsePyIntChars a.toList with - | s
    · have ha2 : parsePyIntChars a.data = none := ha
      simp [mainModel, ha2]
    · have ha2 : parsePyIntChars a.data = some s := ha
      rcases h with h | h
      · rw [ha] at h
        cases h
      · have hb2 : parsePyIntChars b.data = none := h
        simp [mainModel, ha2, hb2]
  · intro prog a b s e ha hb h
    have ha2 : parsePyIntChars a.data = some s := ha
    have hb2 : parsePyIntChars b.data = some e := hb
    rcases h with h | h
    · simp [mainModel, ha2, hb2, h]
    · by_cases hs1 : s < 1
      · simp [mainModel, ha2, hb2, hs1]
      · simp [mainModel, ha2, hb2, hs1, h]
  · intro argv h
    match argv with
    | [] => simp at h
    | [_] => simp at h
    | [_, _] => simp at h
    | [_, _, _] => simp at h
    | _ :: _ :: _ :: _ :: _ => rfl

/-- Witness for C8: each rejection shape is inhabited. -/
theorem main_rejects_bad_args_witness :
    mainModel ["main.py", "abc"] = ⟨1, true, none⟩ ∧
    mainModel ["main.py", "0"] = ⟨1, true, none⟩ ∧
    mainModel ["main.py", "x", "2"] = ⟨1, true, none⟩ ∧
    mainModel ["main.py", "3", "1"] = ⟨1, true, none⟩ ∧
    mainModel ["main.py", "1", "2", "3"] = ⟨1, true, none⟩ :=
  ⟨main_rejects_bad_args.1 "main.py" "abc" (by decide),
   main_rejects_bad_args.2.1 "main.py" "0" 0 (by decide) (by decide),
   main_rejects_bad_args.2.2.1 "main.py" "x" "2" (Or.inl (by decide)),
   main_rejects_bad_args.2.2.2.1 "main.py" "3" "1" 3 1 (by decide) (by decide)
     (Or.inr (by decide)),
   main_rejects_bad_args.2.2.2.2 ["main.py", "1", "2", "3"] (by decide)⟩

/-! ## Claim C9 -/

/-- C9: whenever the Selenium loop of `scrape_companies_list` transitions
to the requests fallback (short content on a later page, or a navigation
failure) after records were already accumulated, those records are
discarded: the function returns exactly the fallback's result, and the
fallback re-fetches the whole configured range starting from page 1. -/
theorem scrape_companies_list_fallback_spec (E : ScrapeEnv) (acc : List CompanyRecord)
    (hs : E.useSelenium = true) (hi : E.initRaises = false)
    (hl : listLoop E.browser E.pages = .fellBack acc) (_hacc : acc ≠ []) :
    scrape_companies_list E = scrape_with_requests_fallback E.http E.pages ∧
    scrape_with_requests_fallback E.http E.pages =
      (List.range' 1 E.pages).flatMap (fun p => fallback_rows (E.http p)) ∧
    (∀ p, p ∈ fallback_pages E.pages ↔ 1 ≤ p ∧ p ≤ E.pages) := by
  refine ⟨?_, rfl, ?_⟩
  · unfold scrape_companies_list
    rw [hs, if_pos rfl, hi, if_neg Bool.false_ne_true, hl]
  · intro p
    unfold fallback_pages
    rw [List.mem_range'_1]
    omega

/-- Browser environment for the C9 witness: every page yields one record
and a failing navigation. -/
def fallbackWitnessBrowser : Nat → BrowserPage :=
  fun _ => ⟨false, false, 20000, [{ companyName := some "Acme" }], false⟩

/-- HTTP environment for the C9 witness. -/
def fallbackWitnessHttp : Nat → HttpPage :=
  fun _ => ⟨some [{ companyName := some "Fallback Co" }]⟩

/-- Scrape environment for the C9 witness: Selenium on, two pages. -/
def fallbackWitnessEnv : ScrapeEnv :=
  ⟨true, false, 2, fallbackWitnessBrowser, fallbackWitnessHttp⟩

/-- Witness for C9: with one record accumulated on page 1 and navigation
failing, the run returns the fallback result over pages 1–2. -/
theorem scrape_companies_list_fallback_spec_witness :
    scrape_companies_list fallbackWitnessEnv =
      scrape_with_requests_fallback fallbackWitnessEnv.http fallbackWitnessEnv.pages ∧
    (1 ∈ fallback_pages fallbackWitnessEnv.pages ↔
      1 ≤ 1 ∧ 1 ≤ fallbackWitnessEnv.pages) :=
  have h := scrape_companies_list_fallback_spec fallbackWitnessEnv
    [{ companyName := some "Acme" }] rfl rfl (by decide) (by decide)
  ⟨h.1, h.2.2 1⟩

/-! ## Claim C10 -/

/-- C10: a row whose expected-class cell count is below 14 extracts as the
all-`None` record — `Company Name` included, whatever the cells contain —
and is therefore dropped by the non-empty-name filter used on every
scraping path. -/
theorem extract_short_row_spec (cells : List Cell) (h : cells.length < 14) :
    extract_company_data_from_card cells = {} ∧
    pyTruthyStr (extract_company_data_from_card cells).companyName = false ∧
    (∀ rs, keep_named (extract_company_data_from_card cells :: rs) = keep_named rs) := by
  have hext : extract_company_data_from_card cells = {} := by
    unfold extract_company_data_from_card
    rw [if_pos h]
  refine ⟨hext, ?_, ?_⟩
  · rw [hext]
    rfl
  · intro rs
    rw [hext]
    unfold keep_named
    rw [List.filter_cons]
    rw [if_neg (by decide)]

/-- Witness for C10: a 13-cell row carrying a name link still extracts as
the empty record and is filtered out. -/
theorem extract_short_row_spec_witness :
    extract_company_data_from_card
      ({ nameLink := some ("Acme", some "/acme") } :: List.replicate 12 defaultCell) = {} ∧
    pyTruthyStr (extract_company_data_from_card
      ({ nameLink := some ("Acme", some "/acme") } ::
        List.replicate 12 defaultCell)).companyName = false ∧
    keep_named [extract_company_data_from_card
      ({ nameLink := some ("Acme", some "/acme") } :: List.replicate 12 defaultCell)] =
      keep_named [] :=
  have h := extract_short_row_spec
    ({ nameLink := some ("Acme", some "/acme") } :: List.replicate 12 defaultCell)
    (by decide)
  ⟨h.1, h.2.1, h.2.2 []⟩
